import Mathlib

/-! AdoraPro: the music and collection handlers of `main.go`.

A shallow embedding of the ten HTTP handlers of `src/main.go` (five for
`Musica`, five for `Colecao`) together with the part of the MongoDB driver
they call: `primitive.ObjectIDFromHex`, `ObjectID.Hex`, and the collection
methods `InsertOne`, `Find`, `FindOne`, `UpdateOne`, `DeleteOne`.

A handler reads the request (path id, decoded body), the outside world
(`time.Now()`, `primitive.NewObjectID()`, whether the store call or the
reading of a cursor fails) and
the two collections, and produces a response and the new collections.
Requests are served one at a time. The file has the definitions first, then
the lemmas on the parser, the store and the handlers, then the claims
C1 to C10 in order of topic.
-/

namespace AdoraPro

deriving instance DecidableEq for Except

/-! ## Identifiers -/

/-- The type `primitive.ObjectID`, a `[12]byte` array. -/
structure ObjectID where
  bytes : List (Fin 256)
  len : bytes.length = 12
deriving DecidableEq, Repr

/-- The value `primitive.NilObjectID`, the zero value of the array. -/
def NilObjectID : ObjectID := ⟨List.replicate 12 0, rfl⟩

/-- The method `ObjectID.IsZero`. -/
def ObjectID.IsZero (id : ObjectID) : Bool := decide (id = NilObjectID)

/-- The constant `hextable` of `encoding/hex`. -/
def hextable : List Char := "0123456789abcdef".toList

/-- One digit of `hex.Encode`: `hextable[n]`. -/
def hexDigit (n : Fin 16) : Char := hextable.getD n.val '0'

/-- The reverse digit table of `encoding/hex`: both letter cases are digits,
every other byte is rejected. -/
def fromHexChar (c : Char) : Option (Fin 16) :=
  if 48 ≤ c.toNat ∧ c.toNat ≤ 57 then some (Fin.ofNat (c.toNat - 48))
  else if 97 ≤ c.toNat ∧ c.toNat ≤ 102 then some (Fin.ofNat (c.toNat - 97 + 10))
  else if 65 ≤ c.toNat ∧ c.toNat ≤ 70 then some (Fin.ofNat (c.toNat - 65 + 10))
  else none

/-- The two digits of one byte, as `hex.Encode` writes them. -/
def encodeByte (b : Fin 256) : List Char :=
  [hexDigit ⟨b.val / 16, by omega⟩, hexDigit ⟨b.val % 16, by omega⟩]

/-- The method `ObjectID.Hex`: 24 lower-case hexadecimal digits. -/
def ObjectID.Hex (id : ObjectID) : String :=
  String.mk (id.bytes.flatMap encodeByte)

/-- The loop of `hex.Decode`: two digits make one byte, any other character
is an error, and so is a trailing single character. The Go loop runs over
bytes; a character outside ASCII contributes only bytes of value 128 or
more, which the reverse table rejects just as the character is rejected
here. -/
def hexDecode : List Char → Option (List (Fin 256))
  | [] => some []
  | [_] => none
  | p :: q :: rest =>
    match fromHexChar p, fromHexChar q with
    | some a, some b =>
      match hexDecode rest with
      | some bs => some (⟨a.val * 16 + b.val, by omega⟩ :: bs)
      | none => none
    | _, _ => none

/-- The builtin `len` of a Go string: its number of bytes in UTF-8. -/
def goLen (s : String) : Nat := (s.toList.map Char.utf8Size).sum

/-- The error `primitive.ErrInvalidHex` and the errors of `hex.Decode`
are not told apart by the handlers; one value stands for them. -/
inductive HexError where
  | invalid
deriving DecidableEq, Repr

/-- The function `primitive.ObjectIDFromHex`: the string must have length
24 and decode as hexadecimal. -/
def ObjectIDFromHex (s : String) : Except HexError ObjectID :=
  if goLen s ≠ 24 then .error .invalid
  else
    match hexDecode s.toList with
    | none => .error .invalid
    | some bs => if h : bs.length = 12 then .ok ⟨bs, h⟩ else .error .invalid

/-- A path id is a well-formed Identifier when it is exactly 24 hexadecimal
characters. -/
def WellFormedID (s : String) : Prop :=
  s.toList.length = 24 ∧ ∀ c ∈ s.toList, (fromHexChar c).isSome = true

instance (s : String) : Decidable (WellFormedID s) := by
  unfold WellFormedID; infer_instance

/-! ## Entities -/

/-- A `time.Time` instant, in nanoseconds since the Unix epoch. -/
abbrev Time := Int

/-- The zero `time.Time` (January 1, year 1, UTC), which a field absent
from a JSON body keeps. -/
def zeroTime : Time := -62135596800000000000

/-- A BSON UTC datetime is a count of milliseconds: the driver's time codec
writes `t.Unix()*1000 + t.Nanosecond()/1000000` and reads that count back,
so an instant comes back rounded down to the millisecond. -/
def bsonTime (t : Int) : Int := t / 1000000 * 1000000

structure EstiloProjecao where
  TamanhoFonte : Int
  CorTexto : String
  CorFundo : String
deriving DecidableEq, Repr

structure Musica where
  ID : ObjectID
  Titulo : String
  Autor : String
  Letra : String
  Categoria : String
  Tags : List String
  EstiloProjecao : EstiloProjecao
  DataCriacao : Time
  DataAtualizacao : Time
deriving DecidableEq, Repr

structure Colecao where
  ID : ObjectID
  Titulo : String
  Descricao : String
  Autor : String
  Musicas : List ObjectID
  DataCriacao : Time
  DataAtualizacao : Time
deriving DecidableEq, Repr

/-! ## The document store -/

/-- What the store needs to know of a document type: its `_id`, how to
replace it, and the BSON image of a value (what comes back when the value is
marshalled and unmarshalled again). -/
class Document (α : Type) where
  id : α → ObjectID
  withID : α → ObjectID → α
  marshal : α → α

/-- The BSON image of a `Musica`: every field is kept, the two instants at
millisecond precision. -/
def Musica.marshal (m : Musica) : Musica :=
  { m with DataCriacao := bsonTime m.DataCriacao
           DataAtualizacao := bsonTime m.DataAtualizacao }

/-- The BSON image of a `Colecao`. -/
def Colecao.marshal (c : Colecao) : Colecao :=
  { c with DataCriacao := bsonTime c.DataCriacao
           DataAtualizacao := bsonTime c.DataAtualizacao }

instance : Document Musica where
  id := Musica.ID
  withID := fun m i => { m with ID := i }
  marshal := Musica.marshal

instance : Document Colecao where
  id := Colecao.ID
  withID := fun c i => { c with ID := i }
  marshal := Colecao.marshal

/-- The errors a collection method can return. -/
inductive StoreError where
  /-- The server cannot be reached, or the call timed out. -/
  | unavailable
  /-- Error E11000: a document with this `_id` is already stored. -/
  | duplicateKey
  /-- Error 66: the update would modify the immutable field `_id`. -/
  | immutableField
  /-- The value `mongo.ErrNoDocuments` of `FindOne`. -/
  | noDocuments
deriving DecidableEq, Repr

/-- The document `InsertOne` sends for a value: its BSON image. Both structs
tag their id `bson:"_id,omitempty"`, so a zero id is left out of the image
and the driver puts in one it generates (`gen`). -/
def stored {α : Type} [Document α] (gen : ObjectID) (doc : α) : α :=
  let d := Document.marshal doc
  if (Document.id d).IsZero then Document.withID d gen else d

/-- The method `Collection.InsertOne`. The server refuses a second document
with the same `_id`. The collection keeps its documents in insertion
order. -/
def InsertOne {α : Type} [Document α] (fault : Option StoreError) (gen : ObjectID)
    (col : List α) (doc : α) : Except StoreError (List α) :=
  match fault with
  | some e => .error e
  | none =>
    let d := stored gen doc
    if col.any (fun x => decide (Document.id x = Document.id d)) then .error .duplicateKey
    else .ok (col ++ [d])

/-- The method `Collection.Find` with the empty filter: an error, or a cursor
over every stored document, in store order. -/
def Find {α : Type} (fault : Option StoreError) (col : List α) :
    Except StoreError (List α) :=
  match fault with
  | some e => .error e
  | none => .ok col

/-- The loop `for cur.Next(ctx) { if cur.Decode(&m) == nil { append } }` of
the list handlers, over the documents still to come. `cur.Next` is false at
the end of the documents and also when the store fails while they are read
(`readFault` counts the documents that come through before that); the
handlers never look at `cur.Err()`, so both end the loop the same way. The
documents are typed here, so `cur.Decode` does not fail. -/
def cursorLoop {α : Type} : Option Nat → List α → List α
  | _, [] => []
  | none, d :: ds => d :: cursorLoop none ds
  | some 0, _ :: _ => []
  | some (n + 1), d :: ds => d :: cursorLoop (some n) ds

/-- The call `FindOne(ctx, {"_id": id}).Decode(&v)`: the first document with
this `_id`, or `mongo.ErrNoDocuments`. -/
def FindOne {α : Type} [Document α] (fault : Option StoreError) (col : List α)
    (id : ObjectID) : Except StoreError α :=
  match fault with
  | some e => .error e
  | none =>
    match col.find? (fun x => decide (Document.id x = id)) with
    | some d => .ok d
    | none => .error .noDocuments

/-- The operator `$set` with a whole struct, applied to one stored document:
every field of the struct replaces the stored one. A zero id is left out
(`omitempty`) and the stored `_id` stays; an id equal to the stored one
changes nothing; any other id is refused by the server. -/
def applySet {α : Type} [Document α] (upd old : α) : Except StoreError α :=
  if (Document.id upd).IsZero then .ok (Document.withID (Document.marshal upd) (Document.id old))
  else if Document.id upd = Document.id old then .ok (Document.marshal upd)
  else .error .immutableField

/-- The first document with this `_id` is updated; no match is no error. -/
def updateFirst {α : Type} [Document α] (id : ObjectID) (upd : α) :
    List α → Except StoreError (List α)
  | [] => .ok []
  | d :: ds =>
    if Document.id d = id then
      match applySet upd d with
      | .ok d1 => .ok (d1 :: ds)
      | .error e => .error e
    else
      match updateFirst id upd ds with
      | .ok ds1 => .ok (d :: ds1)
      | .error e => .error e

/-- The method `Collection.UpdateOne` with filter `{"_id": id}` and update
`{"$set": upd}`. -/
def UpdateOne {α : Type} [Document α] (fault : Option StoreError) (col : List α)
    (id : ObjectID) (upd : α) : Except StoreError (List α) :=
  match fault with
  | some e => .error e
  | none => updateFirst id upd col

/-- The method `Collection.DeleteOne` with filter `{"_id": id}`: the first
document with this `_id` is removed; no match is no error. -/
def DeleteOne {α : Type} [Document α] (fault : Option StoreError) (col : List α)
    (id : ObjectID) : Except StoreError (List α) :=
  match fault with
  | some e => .error e
  | none => .ok (col.eraseP (fun x => decide (Document.id x = id)))

/-- The database `musicadb`: the globals `musicasCol` and `colecoesCol`. -/
structure DB where
  musicas : List Musica
  colecoes : List Colecao
deriving DecidableEq, Repr

/-- What a handler reads from outside during one request. -/
structure Env where
  /-- The value of `time.Now()`. -/
  now : Time
  /-- The value of `primitive.NewObjectID()` in the handler. -/
  newObjectID : ObjectID
  /-- The id the driver would generate for a document without `_id`. -/
  driverObjectID : ObjectID
  /-- The error of the store call when the store fails by itself. -/
  fault : Option StoreError
  /-- When the store fails while a cursor is read: the number of documents
  that come through before the failure. -/
  cursorFault : Option Nat
deriving DecidableEq, Repr

/-! ## Responses -/

abbrev StatusOK : Nat := 200
abbrev StatusCreated : Nat := 201
abbrev StatusNoContent : Nat := 204
abbrev StatusBadRequest : Nat := 400
abbrev StatusNotFound : Nat := 404
abbrev StatusInternalServerError : Nat := 500

/-- What a handler writes after the status line. -/
inductive Body where
  | empty
  | text (msg : String)
  | musica (m : Musica)
  | musicas (ms : List Musica)
  | colecao (c : Colecao)
  | colecoes (cs : List Colecao)
deriving DecidableEq, Repr

structure Response where
  status : Nat
  body : Body
deriving DecidableEq, Repr

/-! ## Handlers for `Musica`

The argument `body` is the result of `json.NewDecoder(r.Body).Decode`:
`none` when decoding fails. The argument `id` is `mux.Vars(r)["id"]`. -/

def createMusica (env : Env) (db : DB) (body : Option Musica) : Response × DB :=
  match body with
  | none => (⟨StatusBadRequest, .text "Erro ao decodificar JSON"⟩, db)
  | some musica =>
    let musica := { musica with ID := env.newObjectID }
    let musica := { musica with DataCriacao := env.now }
    let musica := { musica with DataAtualizacao := musica.DataCriacao }
    match InsertOne env.fault env.driverObjectID db.musicas musica with
    | .error _ => (⟨StatusInternalServerError, .text "Erro ao inserir música"⟩, db)
    | .ok col => (⟨StatusCreated, .musica musica⟩, { db with musicas := col })

def listMusicas (env : Env) (db : DB) : Response × DB :=
  match Find env.fault db.musicas with
  | .error _ => (⟨StatusInternalServerError, .text "Erro ao buscar músicas"⟩, db)
  | .ok cur => (⟨StatusOK, .musicas (cursorLoop env.cursorFault cur)⟩, db)

def getMusica (env : Env) (db : DB) (id : String) : Response × DB :=
  match ObjectIDFromHex id with
  | .error _ => (⟨StatusBadRequest, .text "ID inválido"⟩, db)
  | .ok id =>
    match FindOne env.fault db.musicas id with
    | .error _ => (⟨StatusNotFound, .text "Música não encontrada"⟩, db)
    | .ok musica => (⟨StatusOK, .musica musica⟩, db)

def updateMusica (env : Env) (db : DB) (id : String) (body : Option Musica) :
    Response × DB :=
  match ObjectIDFromHex id with
  | .error _ => (⟨StatusBadRequest, .text "ID inválido"⟩, db)
  | .ok id =>
    match body with
    | none => (⟨StatusBadRequest, .text "Erro ao decodificar JSON"⟩, db)
    | some musica =>
      let musica := { musica with DataAtualizacao := env.now }
      match UpdateOne env.fault db.musicas id musica with
      | .error _ => (⟨StatusInternalServerError, .text "Erro ao atualizar música"⟩, db)
      | .ok col =>
        let musica := { musica with ID := id }
        (⟨StatusOK, .musica musica⟩, { db with musicas := col })

def deleteMusica (env : Env) (db : DB) (id : String) : Response × DB :=
  match ObjectIDFromHex id with
  | .error _ => (⟨StatusBadRequest, .text "ID inválido"⟩, db)
  | .ok id =>
    match DeleteOne env.fault db.musicas id with
    | .error _ => (⟨StatusInternalServerError, .text "Erro ao remover música"⟩, db)
    | .ok col => (⟨StatusNoContent, .empty⟩, { db with musicas := col })

/-! ## Handlers for `Colecao` -/

def createColecao (env : Env) (db : DB) (body : Option Colecao) : Response × DB :=
  match body with
  | none => (⟨StatusBadRequest, .text "Erro ao decodificar JSON"⟩, db)
  | some colecao =>
    let colecao := { colecao with ID := env.newObjectID }
    let colecao := { colecao with DataCriacao := env.now }
    let colecao := { colecao with DataAtualizacao := colecao.DataCriacao }
    match InsertOne env.fault env.driverObjectID db.colecoes colecao with
    | .error _ => (⟨StatusInternalServerError, .text "Erro ao inserir coleção"⟩, db)
    | .ok col => (⟨StatusCreated, .colecao colecao⟩, { db with colecoes := col })

def listColecoes (env : Env) (db : DB) : Response × DB :=
  match Find env.fault db.colecoes with
  | .error _ => (⟨StatusInternalServerError, .text "Erro ao buscar coleções"⟩, db)
  | .ok cur => (⟨StatusOK, .colecoes (cursorLoop env.cursorFault cur)⟩, db)

def getColecao (env : Env) (db : DB) (id : String) : Response × DB :=
  match ObjectIDFromHex id with
  | .error _ => (⟨StatusBadRequest, .text "ID inválido"⟩, db)
  | .ok id =>
    match FindOne env.fault db.colecoes id with
    | .error _ => (⟨StatusNotFound, .text "Coleção não encontrada"⟩, db)
    | .ok colecao => (⟨StatusOK, .colecao colecao⟩, db)

def updateColecao (env : Env) (db : DB) (id : String) (body : Option Colecao) :
    Response × DB :=
  match ObjectIDFromHex id with
  | .error _ => (⟨StatusBadRequest, .text "ID inválido"⟩, db)
  | .ok id =>
    match body with
    | none => (⟨StatusBadRequest, .text "Erro ao decodificar JSON"⟩, db)
    | some colecao =>
      let colecao := { colecao with DataAtualizacao := env.now }
      match UpdateOne env.fault db.colecoes id colecao with
      | .error _ => (⟨StatusInternalServerError, .text "Erro ao atualizar coleção"⟩, db)
      | .ok col =>
        let colecao := { colecao with ID := id }
        (⟨StatusOK, .colecao colecao⟩, { db with colecoes := col })

def deleteColecao (env : Env) (db : DB) (id : String) : Response × DB :=
  match ObjectIDFromHex id with
  | .error _ => (⟨StatusBadRequest, .text "ID inválido"⟩, db)
  | .ok id =>
    match DeleteOne env.fault db.colecoes id with
    | .error _ => (⟨StatusInternalServerError, .text "Erro ao remover coleção"⟩, db)
    | .ok col => (⟨StatusNoContent, .empty⟩, { db with colecoes := col })

/-! ## Requests and runs -/

/-- The routes of `main`. -/
inductive Request where
  | createMusica (body : Option Musica)
  | listMusicas
  | getMusica (id : String)
  | updateMusica (id : String) (body : Option Musica)
  | deleteMusica (id : String)
  | createColecao (body : Option Colecao)
  | listColecoes
  | getColecao (id : String)
  | updateColecao (id : String) (body : Option Colecao)
  | deleteColecao (id : String)

/-- The router: one request, served by its handler. -/
def serve (env : Env) (db : DB) : Request → Response × DB
  | .createMusica body => createMusica env db body
  | .listMusicas => listMusicas env db
  | .getMusica id => getMusica env db id
  | .updateMusica id body => updateMusica env db id body
  | .deleteMusica id => deleteMusica env db id
  | .createColecao body => createColecao env db body
  | .listColecoes => listColecoes env db
  | .getColecao id => getColecao env db id
  | .updateColecao id body => updateColecao env db id body
  | .deleteColecao id => deleteColecao env db id

/-- The store after a sequence of requests, served one after the other. -/
def run (db : DB) : List (Env × Request) → DB
  | [] => db
  | (env, req) :: rest => run (serve env db req).2 rest

/-- The store of a fresh deployment. -/
def DB.empty : DB := ⟨[], []⟩

/-! ## Valid stores -/

/-- The algebra of `_id` and BSON images that the store lemmas rely on. -/
class LawfulDocument (α : Type) [Document α] : Prop where
  id_withID : ∀ (a : α) (i : ObjectID), Document.id (Document.withID a i) = i
  id_marshal : ∀ a : α, Document.id (Document.marshal a) = Document.id a
  withID_id : ∀ a : α, Document.withID a (Document.id a) = a
  marshal_marshal : ∀ a : α, Document.marshal (Document.marshal a) = Document.marshal a
  marshal_withID : ∀ (a : α) (i : ObjectID),
    Document.marshal (Document.withID a i) = Document.withID (Document.marshal a) i

instance : LawfulDocument Musica where
  id_withID := fun _ _ => rfl
  id_marshal := fun _ => rfl
  withID_id := fun _ => rfl
  marshal_marshal := fun a => by
    have h : ∀ t : Int, bsonTime (bsonTime t) = bsonTime t := fun t => by
      unfold bsonTime; omega
    simp only [Document.marshal, Musica.marshal, h]
  marshal_withID := fun _ _ => rfl

instance : LawfulDocument Colecao where
  id_withID := fun _ _ => rfl
  id_marshal := fun _ => rfl
  withID_id := fun _ => rfl
  marshal_marshal := fun a => by
    have h : ∀ t : Int, bsonTime (bsonTime t) = bsonTime t := fun t => by
      unfold bsonTime; omega
    simp only [Document.marshal, Colecao.marshal, h]
  marshal_withID := fun _ _ => rfl

/-- A collection as MongoDB keeps it: at most one document per `_id` (the
unique index on `_id`), each document a BSON image. -/
def ValidColl {α : Type} [Document α] (col : List α) : Prop :=
  (col.map Document.id).Nodup ∧ ∀ d ∈ col, Document.marshal d = d

instance {α : Type} [Document α] [DecidableEq α] (col : List α) : Decidable (ValidColl col) := by
  unfold ValidColl; infer_instance

/-- A state of the database. -/
def DB.Valid (db : DB) : Prop := ValidColl db.musicas ∧ ValidColl db.colecoes

instance (db : DB) : Decidable db.Valid := by
  unfold DB.Valid; infer_instance


/-- A request is well dated when the body of an update carries a createdAt
that is not later than the clock reading of the request. -/
def wellDated (env : Env) : Request → Prop
  | .updateMusica _ (some b) => b.DataCriacao ≤ env.now
  | .updateColecao _ (some b) => b.DataCriacao ≤ env.now
  | _ => True

instance (env : Env) (req : Request) : Decidable (wellDated env req) := by
  unfold wellDated
  split <;> infer_instance

/-! ## Sample data -/

/-- The id `6504d2000000000000000aff`. -/
def sampleID : ObjectID := ⟨[101, 4, 210, 0, 0, 0, 0, 0, 0, 0, 10, 255], rfl⟩

/-- The id `6504d2000000000000000b00`. -/
def otherID : ObjectID := ⟨[101, 4, 210, 0, 0, 0, 0, 0, 0, 0, 11, 0], rfl⟩

/-- A JSON body without id and dates, decoded. -/
def sampleBody : Musica :=
  { ID := NilObjectID, Titulo := "Amazing Grace", Autor := "J. Newton", Letra := "...",
    Categoria := "hymn", Tags := ["worship"],
    EstiloProjecao := ⟨32, "#FFFFFF", "#000000"⟩,
    DataCriacao := zeroTime, DataAtualizacao := zeroTime }

/-- A stored track, created and last updated at 1700000000123 ms. -/
def sampleTrack : Musica :=
  { sampleBody with ID := sampleID, DataCriacao := 1700000000123000000,
                    DataAtualizacao := 1700000000123000000 }

/-- A collection body that refers twice to a track. -/
def sampleSet : Colecao :=
  { ID := NilObjectID, Titulo := "Sunday Set", Descricao := "", Autor := "",
    Musicas := [sampleID, sampleID], DataCriacao := zeroTime, DataAtualizacao := zeroTime }

/-- A stored collection. -/
def sampleColecao : Colecao :=
  { sampleSet with ID := otherID, DataCriacao := 1700000000123000000,
                   DataAtualizacao := 1700000000123000000 }

def sampleDB : DB := ⟨[sampleTrack], [sampleColecao]⟩

/-- A request half a millisecond after the sample documents were written. -/
def sampleEnv : Env :=
  { now := 1700000000123500000, newObjectID := otherID, driverObjectID := NilObjectID,
    fault := none, cursorFault := none }

/-- A request one second later, with a fresh id at hand. -/
def laterEnv : Env :=
  { now := 1700000001123456789, newObjectID := sampleID, driverObjectID := NilObjectID,
    fault := none, cursorFault := none }

/-- An update body whose createdAt lies in the future of both sample clocks. -/
def futureBody : Musica := { sampleBody with DataCriacao := 1800000000000000000 }

/-- A create followed, one second later, by an update that carries
`futureBody`. -/
def misdatedRun : List (Env × Request) :=
  [(sampleEnv, .createMusica (some sampleBody)),
   (laterEnv, .updateMusica otherID.Hex (some futureBody))]

/-- The track at the end of `misdatedRun`. -/
def misdatedTrack : Musica :=
  { sampleBody with ID := otherID, DataCriacao := 1800000000000000000,
                    DataAtualizacao := 1700000001123000000 }

/-- The document under `sampleID` after `sampleBody` is put there at
`sampleEnv`. -/
def replacedTrack : Musica :=
  { sampleBody with ID := sampleID, DataCriacao := zeroTime,
                    DataAtualizacao := 1700000000123000000 }

/-- What create answers for `sampleBody` at `laterEnv`. -/
def createdTrack : Musica :=
  { sampleBody with ID := sampleID, DataCriacao := 1700000001123456789,
                    DataAtualizacao := 1700000001123456789 }

/-- What a get answers right after that create. -/
def fetchedTrack : Musica :=
  { sampleBody with ID := sampleID, DataCriacao := 1700000001123000000,
                    DataAtualizacao := 1700000001123000000 }

/-- Every stored document has updatedAt at or after createdAt. -/
def DB.Ordered (db : DB) : Prop :=
  (∀ m ∈ db.musicas, m.DataCriacao ≤ m.DataAtualizacao) ∧
  (∀ c ∈ db.colecoes, c.DataCriacao ≤ c.DataAtualizacao)

/-- What create answers for `sampleBody` at `sampleEnv`. -/
def newTrack : Musica :=
  { sampleBody with ID := otherID, DataCriacao := 1700000000123500000,
                    DataAtualizacao := 1700000000123500000 }

/-- What create answers for `sampleSet` at `laterEnv`. -/
def newSet : Colecao :=
  { sampleSet with ID := sampleID, DataCriacao := 1700000001123456789,
                   DataAtualizacao := 1700000001123456789 }

/-! ## The identifier parser -/

theorem fromHexChar_hexDigit : ∀ n : Fin 16, fromHexChar (hexDigit n) = some n := by decide

theorem utf8Size_hexDigit : ∀ n : Fin 16, (hexDigit n).utf8Size = 1 := by decide

theorem hexDecode_encode (bs : List (Fin 256)) :
    hexDecode (bs.flatMap encodeByte) = some bs := by
  induction bs with
  | nil => rfl
  | cons b bs ih =>
    have hb : (⟨b.val / 16 * 16 + b.val % 16, by omega⟩ : Fin 256) = b := by
      apply Fin.ext; simp only []; omega
    have step : ∀ rest : List Char, hexDecode (encodeByte b ++ rest) =
        (match hexDecode rest with
          | some bs => some (b :: bs)
          | none => none) := by
      intro rest
      show hexDecode (hexDigit _ :: hexDigit _ :: rest) = _
      simp only [hexDecode, fromHexChar_hexDigit, hb]
    rw [List.flatMap_cons, step, ih]

theorem goLen_Hex (id : ObjectID) : goLen id.Hex = 24 := by
  have h : ∀ bs : List (Fin 256),
      ((bs.flatMap encodeByte).map Char.utf8Size).sum = 2 * bs.length := by
    intro bs
    induction bs with
    | nil => rfl
    | cons b bs ih =>
      simp only [List.flatMap_cons, encodeByte, List.cons_append, List.nil_append, List.map_cons,
        List.sum_cons, utf8Size_hexDigit, ih, List.length_cons]
      omega
  simp only [goLen, ObjectID.Hex, String.toList, h, id.len]

theorem ObjectIDFromHex_Hex (id : ObjectID) : ObjectIDFromHex id.Hex = .ok id := by
  have h1 : hexDecode id.Hex.toList = some id.bytes := by
    simp only [ObjectID.Hex, String.toList, hexDecode_encode]
  unfold ObjectIDFromHex
  rw [if_neg (by simp [goLen_Hex]), h1]
  simp only [id.len, dite_true]

theorem utf8Size_of_fromHexChar {c : Char} (h : (fromHexChar c).isSome = true) :
    c.utf8Size = 1 := by
  have hc : c.toNat ≤ 127 := by
    unfold fromHexChar at h
    split_ifs at h with h1 h2 h3
    · omega
    · omega
    · omega
    · simp at h
  unfold Char.utf8Size
  have : c.val ≤ 127 := by
    rw [UInt32.le_def]
    exact hc
  simp [this]

theorem hexDecode_some {l : List Char} {bs : List (Fin 256)} (h : hexDecode l = some bs) :
    (∀ c ∈ l, (fromHexChar c).isSome = true) ∧ l.length = 2 * bs.length := by
  induction l using hexDecode.induct generalizing bs with
  | case1 =>
    simp only [hexDecode, Option.some.injEq] at h
    subst h
    simp
  | case2 c => simp [hexDecode] at h
  | case3 p q rest a b ha hb bs1 hrest ih =>
    simp only [hexDecode, ha, hb, hrest, Option.some.injEq] at h
    subst h
    obtain ⟨h1, h2⟩ := ih hrest
    refine ⟨?_, ?_⟩
    · intro c hc
      simp only [List.mem_cons] at hc
      rcases hc with rfl | rfl | hc
      · rw [hb]; rfl
      · rw [ha]; rfl
      · exact h1 c hc
    · simp only [List.length_cons, h2]; omega
  | case4 p q rest a b ha hb hrest ih =>
    simp [hexDecode, ha, hb, hrest] at h
  | case5 p q rest hne =>
    exfalso
    cases ha : fromHexChar p with
    | none => simp [hexDecode, ha] at h
    | some a =>
      cases hb : fromHexChar q with
      | none => simp [hexDecode, ha, hb] at h
      | some b => exact hne a b ha hb

theorem hexDecode_of_allHex : ∀ (n : Nat) (l : List Char), l.length = 2 * n →
    (∀ c ∈ l, (fromHexChar c).isSome = true) → ∃ bs, hexDecode l = some bs ∧ bs.length = n := by
  intro n
  induction n with
  | zero =>
    intro l hl _
    have : l = [] := List.length_eq_zero.mp (by omega)
    subst this
    exact ⟨[], rfl, rfl⟩
  | succ n ih =>
    intro l hl hall
    match l, hl, hall with
    | p :: q :: rest, hl, hall =>
      have hp := hall p (by simp)
      have hq := hall q (by simp)
      obtain ⟨a, ha⟩ := Option.isSome_iff_exists.mp hp
      obtain ⟨b, hb⟩ := Option.isSome_iff_exists.mp hq
      obtain ⟨bs, hbs, hlen⟩ := ih rest (by simp only [List.length_cons] at hl; omega)
        (fun c hc => hall c (by simp [hc]))
      refine ⟨(⟨a.val * 16 + b.val, by omega⟩ : Fin 256) :: bs, ?_, ?_⟩
      · simp only [hexDecode, ha, hb, hbs]
      · simp [hlen]
    | [], hl, _ => simp at hl
    | [_], hl, _ => simp only [List.length_singleton] at hl; omega

theorem goLen_of_allHex (s : String) (h : ∀ c ∈ s.toList, (fromHexChar c).isSome = true) :
    goLen s = s.toList.length := by
  unfold goLen
  generalize s.toList = l at h
  induction l with
  | nil => rfl
  | cons c l ih =>
    simp only [List.map_cons, List.sum_cons, List.length_cons,
      utf8Size_of_fromHexChar (h c (by simp)), ih (fun d hd => h d (by simp [hd]))]
    omega

/-- The parser accepts exactly the well-formed Identifiers. -/
theorem ObjectIDFromHex_ok_iff (s : String) :
    (∃ id, ObjectIDFromHex s = .ok id) ↔ WellFormedID s := by
  constructor
  · rintro ⟨id, h⟩
    unfold ObjectIDFromHex at h
    split_ifs at h with hlen
    cases hd : hexDecode s.data with
    | none => simp [hd] at h
    | some bs =>
      obtain ⟨hall, _⟩ := @hexDecode_some s.toList bs hd
      have := goLen_of_allHex s hall
      exact ⟨by omega, hall⟩
  · rintro ⟨hlen, hall⟩
    obtain ⟨bs, hbs, hl⟩ := hexDecode_of_allHex 12 s.toList (by omega) hall
    refine ⟨⟨bs, hl⟩, ?_⟩
    unfold ObjectIDFromHex
    rw [if_neg (by rw [goLen_of_allHex s hall]; omega), hbs]
    simp only [hl, dite_true]

theorem ObjectIDFromHex_error {s : String} (h : ¬ WellFormedID s) :
    ObjectIDFromHex s = .error .invalid := by
  cases hp : ObjectIDFromHex s with
  | ok id => exact absurd ((ObjectIDFromHex_ok_iff s).mp ⟨id, hp⟩) h
  | error e => cases e; rfl

/-! ## The store -/

theorem cursorLoop_none {α : Type} (l : List α) : cursorLoop none l = l := by
  induction l with
  | nil => rfl
  | cons d ds ih => simp only [cursorLoop, ih]

theorem bsonTime_le (t : Int) : bsonTime t ≤ t := by
  unfold bsonTime; omega

theorem bsonTime_mono {a b : Int} (h : a ≤ b) : bsonTime a ≤ bsonTime b := by
  unfold bsonTime; omega

theorem bsonTime_lt {a b : Int} (ha : bsonTime a = a) (h : a + 1000000 ≤ b) :
    a < bsonTime b := by
  unfold bsonTime at ha ⊢; omega

section Store

variable {α : Type} [Document α]

theorem find?_none_of_absent {col : List α} {i : ObjectID}
    (h : ∀ d ∈ col, Document.id d ≠ i) :
    col.find? (fun x => decide (Document.id x = i)) = none := by
  rw [List.find?_eq_none]
  intro d hd
  simpa using h d hd

theorem FindOne_absent {col : List α} {i : ObjectID} (fault : Option StoreError)
    (h : ∀ d ∈ col, Document.id d ≠ i) : ∃ e, FindOne fault col i = .error e := by
  unfold FindOne
  cases fault with
  | some e => exact ⟨e, rfl⟩
  | none => exact ⟨.noDocuments, by simp only [find?_none_of_absent h]⟩

theorem InsertOne_ok [LawfulDocument α] {gen : ObjectID} {col col1 : List α} {doc : α}
    (h : InsertOne none gen col doc = .ok col1) :
    col1 = col ++ [stored gen doc] ∧ ∀ d ∈ col, Document.id d ≠ Document.id (stored gen doc) := by
  simp only [InsertOne] at h
  split_ifs at h with hany
  simp only [Except.ok.injEq] at h
  refine ⟨h.symm, ?_⟩
  intro d hd hid
  apply hany
  simp only [List.any_eq_true, decide_eq_true_eq]
  exact ⟨d, hd, hid⟩

theorem InsertOne_of_fresh {gen : ObjectID} {col : List α} {doc : α}
    (h : ∀ d ∈ col, Document.id d ≠ Document.id (stored gen doc)) :
    InsertOne none gen col doc = .ok (col ++ [stored gen doc]) := by
  simp only [InsertOne]
  rw [if_neg]
  simp only [List.any_eq_true, decide_eq_true_eq, not_exists, not_and]
  exact h

theorem stored_of_ne_nil [LawfulDocument α] {gen : ObjectID} {doc : α} (h : Document.id doc ≠ NilObjectID) :
    stored gen doc = Document.marshal doc := by
  simp only [stored]
  rw [if_neg]
  simp only [ObjectID.IsZero, LawfulDocument.id_marshal, decide_eq_true_eq]
  exact h

theorem marshal_stored [LawfulDocument α] (gen : ObjectID) (doc : α) :
    Document.marshal (stored gen doc) = stored gen doc := by
  simp only [stored]
  split_ifs
  · rw [LawfulDocument.marshal_withID, LawfulDocument.marshal_marshal]
  · rw [LawfulDocument.marshal_marshal]

theorem find?_append_new {col : List α} {d : α}
    (h : ∀ x ∈ col, Document.id x ≠ Document.id d) :
    (col ++ [d]).find? (fun x => decide (Document.id x = Document.id d)) = some d := by
  rw [List.find?_append, find?_none_of_absent h]
  simp

theorem applySet_ok [LawfulDocument α] {upd old d : α} (h : applySet upd old = .ok d) :
    d = Document.withID (Document.marshal upd) (Document.id old) := by
  unfold applySet at h
  split_ifs at h with h1 h2
  · simpa using h.symm
  · simp only [Except.ok.injEq] at h
    rw [← h, ← h2, ← LawfulDocument.id_marshal upd, LawfulDocument.withID_id]

theorem updateFirst_absent {col : List α} {i : ObjectID} (upd : α)
    (h : ∀ d ∈ col, Document.id d ≠ i) : updateFirst i upd col = .ok col := by
  induction col with
  | nil => rfl
  | cons d ds ih =>
    simp only [updateFirst]
    rw [if_neg (h d (by simp)), ih (fun x hx => h x (by simp [hx]))]

theorem updateFirst_ok [LawfulDocument α] {col col1 : List α} {i : ObjectID} {upd : α}
    (h : updateFirst i upd col = .ok col1) :
    col1.map Document.id = col.map Document.id ∧
    (∀ x ∈ col1, x ∈ col ∨ x = Document.withID (Document.marshal upd) i) ∧
    ((∃ e ∈ col, Document.id e = i) →
      col1.find? (fun x => decide (Document.id x = i))
        = some (Document.withID (Document.marshal upd) i)) := by
  induction col generalizing col1 with
  | nil =>
    simp only [updateFirst, Except.ok.injEq] at h
    subst h
    simp
  | cons d ds ih =>
    simp only [updateFirst] at h
    split_ifs at h with hid
    · cases ha : applySet upd d with
      | error e => simp [ha] at h
      | ok d1 =>
        simp only [ha, Except.ok.injEq] at h
        subst h
        have hd1 := applySet_ok ha
        rw [hid] at hd1
        subst hd1
        refine ⟨?_, ?_, ?_⟩
        · simp [LawfulDocument.id_withID, hid]
        · intro x hx
          simp only [List.mem_cons] at hx ⊢
          rcases hx with rfl | hx
          · exact Or.inr rfl
          · exact Or.inl (Or.inr hx)
        · intro _
          simp [LawfulDocument.id_withID]
    · cases hr : updateFirst i upd ds with
      | error e => simp [hr] at h
      | ok ds1 =>
        simp only [hr, Except.ok.injEq] at h
        subst h
        obtain ⟨h1, h2, h3⟩ := ih hr
        refine ⟨?_, ?_, ?_⟩
        · simp [h1]
        · intro x hx
          simp only [List.mem_cons] at hx ⊢
          rcases hx with rfl | hx
          · exact Or.inl (Or.inl rfl)
          · rcases h2 x hx with hx | hx
            · exact Or.inl (Or.inr hx)
            · exact Or.inr hx
        · rintro ⟨e, he, hei⟩
          simp only [List.mem_cons] at he
          rcases he with rfl | he
          · exact absurd hei hid
          · rw [List.find?_cons_of_neg _ (by simpa using hid)]
            exact h3 ⟨e, he, hei⟩

theorem eraseP_absent_of_nodup {col : List α} (i : ObjectID)
    (h : (col.map Document.id).Nodup) :
    ∀ d ∈ col.eraseP (fun x => decide (Document.id x = i)), Document.id d ≠ i := by
  induction col with
  | nil => simp
  | cons a l ih =>
    simp only [List.map_cons, List.nodup_cons, List.mem_map, not_exists, not_and] at h
    by_cases hid : Document.id a = i
    · rw [List.eraseP_cons_of_pos (by simpa using hid)]
      intro d hd hdi
      exact h.1 d hd (hdi.trans hid.symm)
    · rw [List.eraseP_cons_of_neg (by simpa using hid)]
      intro d hd
      simp only [List.mem_cons] at hd
      rcases hd with rfl | hd
      · exact hid
      · exact ih h.2 d hd

theorem eraseP_absent {col : List α} {i : ObjectID} (h : ∀ d ∈ col, Document.id d ≠ i) :
    col.eraseP (fun x => decide (Document.id x = i)) = col :=
  List.eraseP_of_forall_not (fun d hd => by simpa using h d hd)

theorem ValidColl.insert [LawfulDocument α] {gen : ObjectID} {col col1 : List α} {doc : α} (hv : ValidColl col)
    (h : InsertOne none gen col doc = .ok col1) : ValidColl col1 := by
  obtain ⟨h1, h2⟩ := InsertOne_ok h
  subst h1
  refine ⟨?_, ?_⟩
  · rw [List.map_append, List.nodup_append]
    refine ⟨hv.1, by simp, ?_⟩
    intro a ha hb
    simp only [List.map_cons, List.map_nil, List.mem_singleton] at hb
    simp only [List.mem_map] at ha
    obtain ⟨d, hd, rfl⟩ := ha
    exact h2 d hd hb
  · intro d hd
    simp only [List.mem_append, List.mem_singleton] at hd
    rcases hd with hd | rfl
    · exact hv.2 d hd
    · exact marshal_stored gen doc

theorem ValidColl.update [LawfulDocument α] {col col1 : List α} {i : ObjectID} {upd : α} (hv : ValidColl col)
    (h : updateFirst i upd col = .ok col1) : ValidColl col1 := by
  obtain ⟨h1, h2, _⟩ := updateFirst_ok h
  refine ⟨h1 ▸ hv.1, ?_⟩
  intro d hd
  rcases h2 d hd with hd | rfl
  · exact hv.2 d hd
  · rw [LawfulDocument.marshal_withID, LawfulDocument.marshal_marshal]

theorem ValidColl.erase {col : List α} (i : ObjectID) (hv : ValidColl col) :
    ValidColl (col.eraseP (fun x => decide (Document.id x = i))) :=
  ⟨((List.eraseP_sublist col).map _).nodup hv.1,
    fun d hd => hv.2 d (List.mem_of_mem_eraseP hd)⟩

end Store

/-! ## The handlers -/

/-- The entity `createMusica` builds from a decoded body. -/
theorem createMusica_of_insert {env : Env} {db : DB} {b : Musica} {col : List Musica}
    (h : InsertOne env.fault env.driverObjectID db.musicas
      ({ b with ID := env.newObjectID, DataCriacao := env.now, DataAtualizacao := env.now }
        : Musica) = .ok col) :
    createMusica env db (some b)
      = (⟨StatusCreated,
          .musica { b with ID := env.newObjectID, DataCriacao := env.now,
                           DataAtualizacao := env.now }⟩,
         { db with musicas := col }) := by
  simp only [createMusica, h]

theorem createColecao_of_insert {env : Env} {db : DB} {b : Colecao} {col : List Colecao}
    (h : InsertOne env.fault env.driverObjectID db.colecoes
      ({ b with ID := env.newObjectID, DataCriacao := env.now, DataAtualizacao := env.now }
        : Colecao) = .ok col) :
    createColecao env db (some b)
      = (⟨StatusCreated,
          .colecao { b with ID := env.newObjectID, DataCriacao := env.now,
                            DataAtualizacao := env.now }⟩,
         { db with colecoes := col }) := by
  simp only [createColecao, h]

theorem InsertOne_fault {α : Type} [Document α] {fault : Option StoreError} {gen : ObjectID}
    {col col1 : List α} {doc : α} (h : InsertOne fault gen col doc = .ok col1) :
    fault = none := by
  cases fault with
  | none => rfl
  | some e => simp [InsertOne] at h

/-- A 201 from `createMusica` means the body decoded and the insert went
through. -/
theorem createMusica_created {env : Env} {db : DB} {body : Option Musica} {e : Musica}
    (h : (createMusica env db body).1 = ⟨StatusCreated, .musica e⟩) :
    ∃ b, body = some b ∧
      e = { b with ID := env.newObjectID, DataCriacao := env.now, DataAtualizacao := env.now } ∧
      InsertOne none env.driverObjectID db.musicas e
        = .ok (createMusica env db body).2.musicas ∧
      (createMusica env db body).2.colecoes = db.colecoes := by
  cases body with
  | none => simp [createMusica] at h
  | some b =>
    refine ⟨b, rfl, ?_⟩
    cases hi : InsertOne env.fault env.driverObjectID db.musicas
      ({ b with ID := env.newObjectID, DataCriacao := env.now, DataAtualizacao := env.now }
        : Musica) with
    | error err => simp [createMusica, hi] at h
    | ok col =>
      have hf := InsertOne_fault hi
      rw [createMusica_of_insert hi] at h ⊢
      simp only [Response.mk.injEq, Body.musica.injEq, true_and] at h
      subst h
      rw [hf] at hi
      exact ⟨rfl, hi, rfl⟩

theorem createColecao_created {env : Env} {db : DB} {body : Option Colecao} {e : Colecao}
    (h : (createColecao env db body).1 = ⟨StatusCreated, .colecao e⟩) :
    ∃ b, body = some b ∧
      e = { b with ID := env.newObjectID, DataCriacao := env.now, DataAtualizacao := env.now } ∧
      InsertOne none env.driverObjectID db.colecoes e
        = .ok (createColecao env db body).2.colecoes ∧
      (createColecao env db body).2.musicas = db.musicas := by
  cases body with
  | none => simp [createColecao] at h
  | some b =>
    refine ⟨b, rfl, ?_⟩
    cases hi : InsertOne env.fault env.driverObjectID db.colecoes
      ({ b with ID := env.newObjectID, DataCriacao := env.now, DataAtualizacao := env.now }
        : Colecao) with
    | error err => simp [createColecao, hi] at h
    | ok col =>
      have hf := InsertOne_fault hi
      rw [createColecao_of_insert hi] at h ⊢
      simp only [Response.mk.injEq, Body.colecao.injEq, true_and] at h
      subst h
      rw [hf] at hi
      exact ⟨rfl, hi, rfl⟩

/-- Get right after a successful insert of a value with a non-zero id. -/
theorem FindOne_after_insert {α : Type} [Document α] [LawfulDocument α] {gen : ObjectID}
    {col col1 : List α} {doc : α} (h : InsertOne none gen col doc = .ok col1)
    (hid : Document.id doc ≠ NilObjectID) :
    FindOne none col1 (Document.id doc) = .ok (Document.marshal doc) := by
  obtain ⟨h1, h2⟩ := InsertOne_ok h
  rw [stored_of_ne_nil hid] at h1 h2
  subst h1
  have := find?_append_new h2
  rw [LawfulDocument.id_marshal] at this
  simp only [FindOne, this]


theorem createMusica_colecoes (env : Env) (db : DB) (body : Option Musica) :
    (createMusica env db body).2.colecoes = db.colecoes := by
  cases body with
  | none => rfl
  | some b =>
    simp only [createMusica]
    split <;> rfl

theorem updateMusica_colecoes (env : Env) (db : DB) (s : String) (body : Option Musica) :
    (updateMusica env db s body).2.colecoes = db.colecoes := by
  simp only [updateMusica]
  split
  · rfl
  · cases body with
    | none => rfl
    | some b =>
      simp only []
      split <;> rfl

theorem deleteMusica_colecoes (env : Env) (db : DB) (s : String) :
    (deleteMusica env db s).2.colecoes = db.colecoes := by
  simp only [deleteMusica]
  split
  · rfl
  · split <;> rfl

theorem getColecao_response (env : Env) (db db2 : DB) (s : String)
    (h : db2.colecoes = db.colecoes) : (getColecao env db2 s).1 = (getColecao env db s).1 := by
  simp only [getColecao, h]
  split
  · rfl
  · split <;> rfl


/-- How one request can change the tracks collection: not at all, by one
insert, by one `$set`, or by one removal. -/
theorem serve_musicas (env : Env) (db : DB) (req : Request) :
    (serve env db req).2.musicas = db.musicas ∨
    (∃ b : Musica, InsertOne none env.driverObjectID db.musicas
        ({ b with ID := env.newObjectID, DataCriacao := env.now, DataAtualizacao := env.now }
          : Musica) = .ok (serve env db req).2.musicas) ∨
    (∃ (s : String) (i : ObjectID) (b : Musica), req = .updateMusica s (some b) ∧
      updateFirst i ({ b with DataAtualizacao := env.now } : Musica) db.musicas
        = .ok (serve env db req).2.musicas) ∨
    (∃ i : ObjectID, (serve env db req).2.musicas
        = db.musicas.eraseP (fun x => decide (Document.id x = i))) := by
  cases req with
  | createMusica body =>
    cases body with
    | none => exact Or.inl rfl
    | some b =>
      cases hi : InsertOne env.fault env.driverObjectID db.musicas
        ({ b with ID := env.newObjectID, DataCriacao := env.now, DataAtualizacao := env.now }
          : Musica) with
      | error e => left; simp only [serve, createMusica, hi]
      | ok col =>
        right; left
        refine ⟨b, ?_⟩
        have hf := InsertOne_fault hi
        simp only [serve, createMusica_of_insert hi]
        rw [← hf, hi]
  | updateMusica s body =>
    simp only [serve, updateMusica]
    cases hs : ObjectIDFromHex s with
    | error e => exact Or.inl rfl
    | ok i =>
      cases body with
      | none => exact Or.inl rfl
      | some b =>
        cases hf : env.fault with
        | some e => left; simp only [UpdateOne, hf]
        | none =>
          simp only [UpdateOne, hf]
          cases hu : updateFirst i ({ b with DataAtualizacao := env.now } : Musica)
            db.musicas with
          | error e => exact Or.inl rfl
          | ok col => exact Or.inr (Or.inr (Or.inl ⟨s, i, b, rfl, hu⟩))
  | deleteMusica s =>
    simp only [serve, deleteMusica]
    cases hs : ObjectIDFromHex s with
    | error e => exact Or.inl rfl
    | ok i =>
      cases hf : env.fault with
      | some e => left; simp only [DeleteOne, hf]
      | none => exact Or.inr (Or.inr (Or.inr ⟨i, by simp only [DeleteOne, hf]⟩))
  | listMusicas => left; simp only [serve, listMusicas]; split <;> rfl
  | getMusica s =>
    left; simp only [serve, getMusica]
    split
    · rfl
    · split <;> rfl
  | createColecao body =>
    left
    cases body with
    | none => rfl
    | some b => simp only [serve, createColecao]; split <;> rfl
  | listColecoes => left; simp only [serve, listColecoes]; split <;> rfl
  | getColecao s =>
    left; simp only [serve, getColecao]
    split
    · rfl
    · split <;> rfl
  | updateColecao s body =>
    left; simp only [serve, updateColecao]
    split
    · rfl
    · cases body with
      | none => rfl
      | some b => simp only []; split <;> rfl
  | deleteColecao s =>
    left; simp only [serve, deleteColecao]
    split
    · rfl
    · split <;> rfl

/-- How one request can change the collections collection. -/
theorem serve_colecoes (env : Env) (db : DB) (req : Request) :
    (serve env db req).2.colecoes = db.colecoes ∨
    (∃ b : Colecao, InsertOne none env.driverObjectID db.colecoes
        ({ b with ID := env.newObjectID, DataCriacao := env.now, DataAtualizacao := env.now }
          : Colecao) = .ok (serve env db req).2.colecoes) ∨
    (∃ (s : String) (i : ObjectID) (b : Colecao), req = .updateColecao s (some b) ∧
      updateFirst i ({ b with DataAtualizacao := env.now } : Colecao) db.colecoes
        = .ok (serve env db req).2.colecoes) ∨
    (∃ i : ObjectID, (serve env db req).2.colecoes
        = db.colecoes.eraseP (fun x => decide (Document.id x = i))) := by
  cases req with
  | createColecao body =>
    cases body with
    | none => exact Or.inl rfl
    | some b =>
      cases hi : InsertOne env.fault env.driverObjectID db.colecoes
        ({ b with ID := env.newObjectID, DataCriacao := env.now, DataAtualizacao := env.now }
          : Colecao) with
      | error e => left; simp only [serve, createColecao, hi]
      | ok col =>
        right; left
        refine ⟨b, ?_⟩
        have hf := InsertOne_fault hi
        simp only [serve, createColecao_of_insert hi]
        rw [← hf, hi]
  | updateColecao s body =>
    simp only [serve, updateColecao]
    cases hs : ObjectIDFromHex s with
    | error e => exact Or.inl rfl
    | ok i =>
      cases body with
      | none => exact Or.inl rfl
      | some b =>
        cases hf : env.fault with
        | some e => left; simp only [UpdateOne, hf]
        | none =>
          simp only [UpdateOne, hf]
          cases hu : updateFirst i ({ b with DataAtualizacao := env.now } : Colecao)
            db.colecoes with
          | error e => exact Or.inl rfl
          | ok col => exact Or.inr (Or.inr (Or.inl ⟨s, i, b, rfl, hu⟩))
  | deleteColecao s =>
    simp only [serve, deleteColecao]
    cases hs : ObjectIDFromHex s with
    | error e => exact Or.inl rfl
    | ok i =>
      cases hf : env.fault with
      | some e => left; simp only [DeleteOne, hf]
      | none => exact Or.inr (Or.inr (Or.inr ⟨i, by simp only [DeleteOne, hf]⟩))
  | listColecoes => left; simp only [serve, listColecoes]; split <;> rfl
  | getColecao s =>
    left; simp only [serve, getColecao]
    split
    · rfl
    · split <;> rfl
  | createMusica body =>
    left
    cases body with
    | none => rfl
    | some b => simp only [serve, createMusica]; split <;> rfl
  | listMusicas => left; simp only [serve, listMusicas]; split <;> rfl
  | getMusica s =>
    left; simp only [serve, getMusica]
    split
    · rfl
    · split <;> rfl
  | updateMusica s body =>
    left; simp only [serve, updateMusica]
    split
    · rfl
    · cases body with
      | none => rfl
      | some b => simp only []; split <;> rfl
  | deleteMusica s =>
    left; simp only [serve, deleteMusica]
    split
    · rfl
    · split <;> rfl

/-- Every request takes a valid store to a valid store. -/
theorem serve_valid (env : Env) (db : DB) (req : Request) (hv : db.Valid) :
    (serve env db req).2.Valid := by
  constructor
  · rcases serve_musicas env db req with h | ⟨b, h⟩ | ⟨s, i, b, _, h⟩ | ⟨i, h⟩
    · rw [h]; exact hv.1
    · exact hv.1.insert h
    · exact hv.1.update h
    · rw [h]; exact hv.1.erase i
  · rcases serve_colecoes env db req with h | ⟨b, h⟩ | ⟨s, i, b, _, h⟩ | ⟨i, h⟩
    · rw [h]; exact hv.2
    · exact hv.2.insert h
    · exact hv.2.update h
    · rw [h]; exact hv.2.erase i

/-- Every store reached from a valid one is valid; the empty store is. -/
theorem run_valid (reqs : List (Env × Request)) (db : DB) (hv : db.Valid) :
    (run db reqs).Valid := by
  induction reqs generalizing db with
  | nil => exact hv
  | cons r rest ih => exact ih _ (serve_valid r.1 db r.2 hv)

theorem empty_valid : DB.empty.Valid := by decide

theorem stored_dates_musica (gen : ObjectID) (m : Musica) :
    (stored gen m).DataCriacao = bsonTime m.DataCriacao ∧
    (stored gen m).DataAtualizacao = bsonTime m.DataAtualizacao := by
  simp only [stored]
  split_ifs <;> exact ⟨rfl, rfl⟩

theorem stored_dates_colecao (gen : ObjectID) (c : Colecao) :
    (stored gen c).DataCriacao = bsonTime c.DataCriacao ∧
    (stored gen c).DataAtualizacao = bsonTime c.DataAtualizacao := by
  simp only [stored]
  split_ifs <;> exact ⟨rfl, rfl⟩

/-- A well dated request keeps updatedAt at or after createdAt. -/
theorem serve_ordered (env : Env) (db : DB) (req : Request) (h0 : db.Ordered)
    (hw : wellDated env req) : (serve env db req).2.Ordered := by
  constructor
  · rcases serve_musicas env db req with h | ⟨b, h⟩ | ⟨s, i, b, hreq, h⟩ | ⟨i, h⟩
    · rw [h]; exact h0.1
    · obtain ⟨h1, _⟩ := InsertOne_ok h
      rw [h1]
      intro m hm
      simp only [List.mem_append, List.mem_singleton] at hm
      rcases hm with hm | rfl
      · exact h0.1 m hm
      · obtain ⟨e1, e2⟩ := stored_dates_musica env.driverObjectID
          { b with ID := env.newObjectID, DataCriacao := env.now, DataAtualizacao := env.now }
        rw [e1, e2]
    · obtain ⟨_, h2, _⟩ := updateFirst_ok h
      intro m hm
      rcases h2 m hm with hm | rfl
      · exact h0.1 m hm
      · subst hreq
        exact bsonTime_mono hw
    · rw [h]
      intro m hm
      exact h0.1 m (List.mem_of_mem_eraseP hm)
  · rcases serve_colecoes env db req with h | ⟨b, h⟩ | ⟨s, i, b, hreq, h⟩ | ⟨i, h⟩
    · rw [h]; exact h0.2
    · obtain ⟨h1, _⟩ := InsertOne_ok h
      rw [h1]
      intro c hc
      simp only [List.mem_append, List.mem_singleton] at hc
      rcases hc with hc | rfl
      · exact h0.2 c hc
      · obtain ⟨e1, e2⟩ := stored_dates_colecao env.driverObjectID
          { b with ID := env.newObjectID, DataCriacao := env.now, DataAtualizacao := env.now }
        rw [e1, e2]
    · obtain ⟨_, h2, _⟩ := updateFirst_ok h
      intro c hc
      rcases h2 c hc with hc | rfl
      · exact h0.2 c hc
      · subst hreq
        exact bsonTime_mono hw
    · rw [h]
      intro c hc
      exact h0.2 c (List.mem_of_mem_eraseP hc)

theorem run_ordered (reqs : List (Env × Request)) (db : DB) (h0 : db.Ordered)
    (hw : ∀ r ∈ reqs, wellDated r.1 r.2) : (run db reqs).Ordered := by
  induction reqs generalizing db with
  | nil => exact h0
  | cons r rest ih =>
    exact ih _ (serve_ordered r.1 db r.2 h0 (hw r (by simp))) (fun x hx => hw x (by simp [hx]))

theorem UpdateOne_fault {α : Type} [Document α] {fault : Option StoreError} {col col1 : List α}
    {i : ObjectID} {upd : α} (h : UpdateOne fault col i upd = .ok col1) :
    updateFirst i upd col = .ok col1 := by
  cases fault with
  | none => exact h
  | some e => simp [UpdateOne] at h

/-! ## Malformed path ids -/

/-- C1: a path id that is not a well-formed Identifier (not exactly 24
hexadecimal characters) makes get, update and delete, on tracks and on
collections, answer 400 "ID inválido" (never 404) for every store, every
body and every state of the outside world, and the store comes back as it
was: the answer is fixed before any store call. -/
theorem C1_malformed_id_is_client_error (s : String) (h : ¬ WellFormedID s)
    (env : Env) (db : DB) (bm : Option Musica) (bc : Option Colecao) :
    getMusica env db s = (⟨StatusBadRequest, .text "ID inválido"⟩, db) ∧
    updateMusica env db s bm = (⟨StatusBadRequest, .text "ID inválido"⟩, db) ∧
    deleteMusica env db s = (⟨StatusBadRequest, .text "ID inválido"⟩, db) ∧
    getColecao env db s = (⟨StatusBadRequest, .text "ID inválido"⟩, db) ∧
    updateColecao env db s bc = (⟨StatusBadRequest, .text "ID inválido"⟩, db) ∧
    deleteColecao env db s = (⟨StatusBadRequest, .text "ID inválido"⟩, db) ∧
    (getMusica env db s).1.status ≠ StatusNotFound ∧
    (getColecao env db s).1.status ≠ StatusNotFound := by
  have hp := ObjectIDFromHex_error h
  simp only [getMusica, updateMusica, deleteMusica, getColecao, updateColecao, deleteColecao, hp]
  decide


/-- C1 at the path id `not-an-id`. -/
theorem C1_malformed_id_is_client_error_witness :
    ¬ WellFormedID "not-an-id" ∧
    getMusica sampleEnv sampleDB "not-an-id"
      = (⟨StatusBadRequest, .text "ID inválido"⟩, sampleDB) :=
  ⟨by decide,
    (C1_malformed_id_is_client_error "not-an-id" (by decide) sampleEnv sampleDB none none).1⟩

/-! ## Update -/

/-- C2, counterexample: the stored `sampleTrack` is updated, half a
millisecond after it was written, with a body that carries no dates. The
update answers 200 and the document under the id has the body's createdAt
(the zero time) instead of the original one, and an updatedAt that equals
the old updatedAt, not the clock reading. -/
theorem C2_counterexample :
    sampleTrack ∈ sampleDB.musicas ∧ sampleTrack.DataAtualizacao < sampleEnv.now ∧
    (updateMusica sampleEnv sampleDB sampleTrack.ID.Hex (some sampleBody)).1.status
      = StatusOK ∧
    FindOne none (updateMusica sampleEnv sampleDB sampleTrack.ID.Hex (some sampleBody)).2.musicas
      sampleTrack.ID = .ok replacedTrack ∧
    replacedTrack.DataCriacao ≠ sampleTrack.DataCriacao ∧
    replacedTrack.DataAtualizacao ≠ sampleEnv.now ∧
    ¬ sampleTrack.DataAtualizacao < replacedTrack.DataAtualizacao := by
  decide

/-- C2, as the code has it: after a successful update at the id of a stored
entity `e` with body `b`, the document under that id is the body as the
store keeps it, with the id of `e`: createdAt is the body's createdAt (not
that of `e`) and updatedAt is the clock reading, both rounded down to the
millisecond. That updatedAt is not earlier than the old one when the clock
is not, and strictly later once the clock is a millisecond past it. -/
theorem C2_update_replaces_document :
    (∀ (env : Env) (db : DB) (s : String) (e b : Musica),
      db.Valid → e ∈ db.musicas → ObjectIDFromHex s = .ok e.ID →
      (updateMusica env db s (some b)).1.status = StatusOK →
      FindOne none (updateMusica env db s (some b)).2.musicas e.ID
        = .ok { b with ID := e.ID, DataCriacao := bsonTime b.DataCriacao,
                       DataAtualizacao := bsonTime env.now } ∧
      (e.DataAtualizacao ≤ env.now → e.DataAtualizacao ≤ bsonTime env.now) ∧
      (e.DataAtualizacao + 1000000 ≤ env.now → e.DataAtualizacao < bsonTime env.now)) ∧
    (∀ (env : Env) (db : DB) (s : String) (e b : Colecao),
      db.Valid → e ∈ db.colecoes → ObjectIDFromHex s = .ok e.ID →
      (updateColecao env db s (some b)).1.status = StatusOK →
      FindOne none (updateColecao env db s (some b)).2.colecoes e.ID
        = .ok { b with ID := e.ID, DataCriacao := bsonTime b.DataCriacao,
                       DataAtualizacao := bsonTime env.now } ∧
      (e.DataAtualizacao ≤ env.now → e.DataAtualizacao ≤ bsonTime env.now) ∧
      (e.DataAtualizacao + 1000000 ≤ env.now → e.DataAtualizacao < bsonTime env.now)) := by
  constructor
  · intro env db s e b hv he hs hst
    have hal : bsonTime e.DataAtualizacao = e.DataAtualizacao :=
      congrArg Musica.DataAtualizacao (hv.1.2 e he)
    refine ⟨?_, ?_, ?_⟩
    · simp only [updateMusica, hs] at hst ⊢
      cases hu : UpdateOne env.fault db.musicas e.ID
        ({ b with DataAtualizacao := env.now } : Musica) with
      | error err => simp [hu] at hst
      | ok col =>
        obtain ⟨_, _, h3⟩ := updateFirst_ok (UpdateOne_fault hu)
        have hfind := h3 ⟨e, he, rfl⟩
        simp only [FindOne, hfind]
        rfl
    · intro hle
      rw [← hal]
      exact bsonTime_mono hle
    · intro hle
      exact bsonTime_lt hal hle
  · intro env db s e b hv he hs hst
    have hal : bsonTime e.DataAtualizacao = e.DataAtualizacao :=
      congrArg Colecao.DataAtualizacao (hv.2.2 e he)
    refine ⟨?_, ?_, ?_⟩
    · simp only [updateColecao, hs] at hst ⊢
      cases hu : UpdateOne env.fault db.colecoes e.ID
        ({ b with DataAtualizacao := env.now } : Colecao) with
      | error err => simp [hu] at hst
      | ok col =>
        obtain ⟨_, _, h3⟩ := updateFirst_ok (UpdateOne_fault hu)
        have hfind := h3 ⟨e, he, rfl⟩
        simp only [FindOne, hfind]
        rfl
    · intro hle
      rw [← hal]
      exact bsonTime_mono hle
    · intro hle
      exact bsonTime_lt hal hle

/-- C2 as amended, at the stored `sampleTrack`, updated one second later. -/
theorem C2_update_replaces_document_witness :
    sampleDB.Valid ∧ sampleTrack ∈ sampleDB.musicas ∧
    ObjectIDFromHex "6504d2000000000000000aff" = .ok sampleTrack.ID ∧
    (updateMusica laterEnv sampleDB "6504d2000000000000000aff" (some sampleBody)).1.status
      = StatusOK ∧
    FindOne none
        (updateMusica laterEnv sampleDB "6504d2000000000000000aff" (some sampleBody)).2.musicas
        sampleTrack.ID
      = .ok { sampleBody with ID := sampleTrack.ID, DataCriacao := bsonTime sampleBody.DataCriacao,
                              DataAtualizacao := bsonTime laterEnv.now } :=
  ⟨by decide, by decide, by decide, by decide,
    (C2_update_replaces_document.1 laterEnv sampleDB "6504d2000000000000000aff" sampleTrack
      sampleBody (by decide) (by decide) (by decide) (by decide)).1⟩

/-! ## The order of the two dates -/

/-- C3, counterexample: from the empty store, a create and then, one second
later, an update whose body carries a createdAt in the future leave a track
whose createdAt is later than its updatedAt. -/
theorem C3_counterexample :
    sampleEnv.now ≤ laterEnv.now ∧
    (run DB.empty misdatedRun).musicas = [misdatedTrack] ∧
    ¬ misdatedTrack.DataCriacao ≤ misdatedTrack.DataAtualizacao := by
  decide

/-- C3, as the code has it: in every store reached from the empty store by
any sequence of requests in which the body of each update carries a
createdAt not later than the clock reading of that update, every stored
track and every stored collection has updatedAt at or after createdAt. -/
theorem C3_dates_ordered (reqs : List (Env × Request))
    (h : ∀ r ∈ reqs, wellDated r.1 r.2) :
    (∀ m ∈ (run DB.empty reqs).musicas, m.DataCriacao ≤ m.DataAtualizacao) ∧
    (∀ c ∈ (run DB.empty reqs).colecoes, c.DataCriacao ≤ c.DataAtualizacao) :=
  run_ordered reqs DB.empty ⟨by simp [DB.empty], by simp [DB.empty]⟩ h

/-- C3 as amended, at a create followed by an update without dates. -/
theorem C3_dates_ordered_witness :
    (∀ r ∈ [(sampleEnv, Request.createMusica (some sampleBody)),
            (laterEnv, Request.updateMusica otherID.Hex (some sampleBody))],
      wellDated r.1 r.2) ∧
    ((∀ m ∈ (run DB.empty [(sampleEnv, Request.createMusica (some sampleBody)),
        (laterEnv, Request.updateMusica otherID.Hex (some sampleBody))]).musicas,
      m.DataCriacao ≤ m.DataAtualizacao) ∧
    (∀ c ∈ (run DB.empty [(sampleEnv, Request.createMusica (some sampleBody)),
        (laterEnv, Request.updateMusica otherID.Hex (some sampleBody))]).colecoes,
      c.DataCriacao ≤ c.DataAtualizacao)) :=
  ⟨by decide, C3_dates_ordered _ (by decide)⟩

/-! ## Create -/

/-- C4: for every decodable create body, whatever id and timestamps it
carries, and a store whose insert succeeds, create answers 201 with an entity
whose id is the freshly generated one, whose createdAt and updatedAt both
equal the current time and whose other fields are the body's; that same
entity is what was handed to the insert, and the collection grows by its
document, nothing else changes. -/
theorem C4_create_returns_fresh_entity :
    (∀ (env : Env) (db : DB) (b e : Musica) (col : List Musica),
      e = { b with ID := env.newObjectID, DataCriacao := env.now,
                   DataAtualizacao := env.now } →
      InsertOne env.fault env.driverObjectID db.musicas e = .ok col →
      createMusica env db (some b) = (⟨StatusCreated, .musica e⟩, ⟨col, db.colecoes⟩) ∧
      e.ID = env.newObjectID ∧ e.DataCriacao = env.now ∧ e.DataAtualizacao = e.DataCriacao ∧
      e.Titulo = b.Titulo ∧ e.Autor = b.Autor ∧ e.Letra = b.Letra ∧
      e.Categoria = b.Categoria ∧ e.Tags = b.Tags ∧ e.EstiloProjecao = b.EstiloProjecao ∧
      col = db.musicas ++ [stored env.driverObjectID e] ∧
      (env.newObjectID ≠ NilObjectID → stored env.driverObjectID e = e.marshal)) ∧
    (∀ (env : Env) (db : DB) (b e : Colecao) (col : List Colecao),
      e = { b with ID := env.newObjectID, DataCriacao := env.now,
                   DataAtualizacao := env.now } →
      InsertOne env.fault env.driverObjectID db.colecoes e = .ok col →
      createColecao env db (some b) = (⟨StatusCreated, .colecao e⟩, ⟨db.musicas, col⟩) ∧
      e.ID = env.newObjectID ∧ e.DataCriacao = env.now ∧ e.DataAtualizacao = e.DataCriacao ∧
      e.Titulo = b.Titulo ∧ e.Descricao = b.Descricao ∧ e.Autor = b.Autor ∧
      e.Musicas = b.Musicas ∧
      col = db.colecoes ++ [stored env.driverObjectID e] ∧
      (env.newObjectID ≠ NilObjectID → stored env.driverObjectID e = e.marshal)) := by
  constructor
  · intro env db b e col he hi
    subst he
    have hf := InsertOne_fault hi
    refine ⟨createMusica_of_insert hi, rfl, rfl, rfl, rfl, rfl, rfl, rfl, rfl, rfl, ?_, ?_⟩
    · rw [hf] at hi
      exact (InsertOne_ok hi).1
    · intro hne
      exact @stored_of_ne_nil Musica _ _ _ _ hne
  · intro env db b e col he hi
    subst he
    have hf := InsertOne_fault hi
    refine ⟨createColecao_of_insert hi, rfl, rfl, rfl, rfl, rfl, rfl, rfl, ?_, ?_⟩
    · rw [hf] at hi
      exact (InsertOne_ok hi).1
    · intro hne
      exact @stored_of_ne_nil Colecao _ _ _ _ hne


/-- C4 at a body that carries an id and dates of its own. -/
theorem C4_create_returns_fresh_entity_witness :
    newTrack = { sampleTrack with ID := sampleEnv.newObjectID, DataCriacao := sampleEnv.now,
                                  DataAtualizacao := sampleEnv.now } ∧
    InsertOne sampleEnv.fault sampleEnv.driverObjectID sampleDB.musicas newTrack
      = .ok [sampleTrack, newTrack.marshal] ∧
    createMusica sampleEnv sampleDB (some sampleTrack)
      = (⟨StatusCreated, .musica newTrack⟩, ⟨[sampleTrack, newTrack.marshal], sampleDB.colecoes⟩) ∧
    newTrack.ID ≠ sampleTrack.ID :=
  ⟨by decide, by decide,
    (C4_create_returns_fresh_entity.1 sampleEnv sampleDB sampleTrack newTrack
      [sampleTrack, newTrack.marshal] (by decide) (by decide)).1, by decide⟩

/-! ## Read after write -/

/-- C5, counterexample: a track created at a clock reading that is not a
whole number of milliseconds comes back from the get that follows with
other createdAt and updatedAt than the create answered. -/
theorem C5_counterexample :
    (createMusica laterEnv DB.empty (some sampleBody)).1
      = ⟨StatusCreated, .musica createdTrack⟩ ∧
    (getMusica sampleEnv (createMusica laterEnv DB.empty (some sampleBody)).2
        createdTrack.ID.Hex).1 = ⟨StatusOK, .musica fetchedTrack⟩ ∧
    fetchedTrack ≠ createdTrack ∧
    fetchedTrack.DataCriacao ≠ createdTrack.DataCriacao ∧
    fetchedTrack.DataAtualizacao ≠ createdTrack.DataAtualizacao := by
  decide

/-- C5, as the code has it: when create answers 201 with entity `e` (its id
a generated, non-zero one), a get with the hex string of `e.ID`, the store
call not failing, answers 200 with `e` as the store keeps it: the same id
and content fields, createdAt and updatedAt rounded down to the
millisecond. The two are equal field for field when the clock reading at
create is a whole number of milliseconds. -/
theorem C5_read_after_write :
    (∀ (env env2 : Env) (db : DB) (body : Option Musica) (e : Musica),
      (createMusica env db body).1 = ⟨StatusCreated, .musica e⟩ →
      env.newObjectID ≠ NilObjectID → env2.fault = none →
      getMusica env2 (createMusica env db body).2 e.ID.Hex
        = (⟨StatusOK, .musica { e with DataCriacao := bsonTime e.DataCriacao,
                                       DataAtualizacao := bsonTime e.DataAtualizacao }⟩,
            (createMusica env db body).2) ∧
      (bsonTime env.now = env.now →
        getMusica env2 (createMusica env db body).2 e.ID.Hex
          = (⟨StatusOK, .musica e⟩, (createMusica env db body).2))) ∧
    (∀ (env env2 : Env) (db : DB) (body : Option Colecao) (e : Colecao),
      (createColecao env db body).1 = ⟨StatusCreated, .colecao e⟩ →
      env.newObjectID ≠ NilObjectID → env2.fault = none →
      getColecao env2 (createColecao env db body).2 e.ID.Hex
        = (⟨StatusOK, .colecao { e with DataCriacao := bsonTime e.DataCriacao,
                                         DataAtualizacao := bsonTime e.DataAtualizacao }⟩,
            (createColecao env db body).2) ∧
      (bsonTime env.now = env.now →
        getColecao env2 (createColecao env db body).2 e.ID.Hex
          = (⟨StatusOK, .colecao e⟩, (createColecao env db body).2))) := by
  constructor
  · intro env env2 db body e h hne hf
    obtain ⟨b, _, he, hi, _⟩ := createMusica_created h
    have hid : Document.id e ≠ NilObjectID := by rw [he]; exact hne
    have hfind := FindOne_after_insert hi hid
    have hget : getMusica env2 (createMusica env db body).2 e.ID.Hex
        = (⟨StatusOK, .musica e.marshal⟩, (createMusica env db body).2) := by
      simp only [getMusica, ObjectIDFromHex_Hex, hf]
      rw [show e.ID = Document.id e from rfl, hfind]
      rfl
    refine ⟨hget, ?_⟩
    intro hal
    rw [hget]
    have : e.marshal = e := by
      rw [he]
      simp only [Musica.marshal, hal]
    rw [this]
  · intro env env2 db body e h hne hf
    obtain ⟨b, _, he, hi, _⟩ := createColecao_created h
    have hid : Document.id e ≠ NilObjectID := by rw [he]; exact hne
    have hfind := FindOne_after_insert hi hid
    have hget : getColecao env2 (createColecao env db body).2 e.ID.Hex
        = (⟨StatusOK, .colecao e.marshal⟩, (createColecao env db body).2) := by
      simp only [getColecao, ObjectIDFromHex_Hex, hf]
      rw [show e.ID = Document.id e from rfl, hfind]
      rfl
    refine ⟨hget, ?_⟩
    intro hal
    rw [hget]
    have : e.marshal = e := by
      rw [he]
      simp only [Colecao.marshal, hal]
    rw [this]

/-- C5 as amended, at a create on the empty store. -/
theorem C5_read_after_write_witness :
    (createMusica laterEnv DB.empty (some sampleBody)).1
      = ⟨StatusCreated, .musica createdTrack⟩ ∧
    laterEnv.newObjectID ≠ NilObjectID ∧ sampleEnv.fault = none ∧
    getMusica sampleEnv (createMusica laterEnv DB.empty (some sampleBody)).2 createdTrack.ID.Hex
      = (⟨StatusOK, .musica { createdTrack with
            DataCriacao := bsonTime createdTrack.DataCriacao,
            DataAtualizacao := bsonTime createdTrack.DataAtualizacao }⟩,
          (createMusica laterEnv DB.empty (some sampleBody)).2) :=
  ⟨by decide, by decide, by decide,
    (C5_read_after_write.1 laterEnv sampleEnv DB.empty (some sampleBody) createdTrack
      (by decide) (by decide) (by decide)).1⟩

/-! ## Absent ids -/

/-- C6: a well-formed id that no stored document carries makes getTrack and
getCollection answer 404 with their fixed message and no entity, and the
store comes back as it was. -/
theorem C6_get_absent_is_not_found :
    (∀ (env : Env) (db : DB) (s : String) (id : ObjectID),
      ObjectIDFromHex s = .ok id → (∀ m ∈ db.musicas, m.ID ≠ id) →
      getMusica env db s = (⟨StatusNotFound, .text "Música não encontrada"⟩, db)) ∧
    (∀ (env : Env) (db : DB) (s : String) (id : ObjectID),
      ObjectIDFromHex s = .ok id → (∀ c ∈ db.colecoes, c.ID ≠ id) →
      getColecao env db s = (⟨StatusNotFound, .text "Coleção não encontrada"⟩, db)) := by
  constructor
  · intro env db s id hs habs
    obtain ⟨e, he⟩ := @FindOne_absent Musica _ db.musicas id env.fault habs
    simp only [getMusica, hs, he]
  · intro env db s id hs habs
    obtain ⟨e, he⟩ := @FindOne_absent Colecao _ db.colecoes id env.fault habs
    simp only [getColecao, hs, he]


/-- C6 at an id that `sampleDB` holds no track for. -/
theorem C6_get_absent_is_not_found_witness :
    ObjectIDFromHex "6504d2000000000000000b00" = .ok otherID ∧
    (∀ m ∈ sampleDB.musicas, m.ID ≠ otherID) ∧
    getMusica sampleEnv sampleDB "6504d2000000000000000b00"
      = (⟨StatusNotFound, .text "Música não encontrada"⟩, sampleDB) :=
  ⟨by decide, by decide,
    C6_get_absent_is_not_found.1 sampleEnv sampleDB "6504d2000000000000000b00" otherID
      (by decide) (by decide)⟩

/-! ## Store failures -/

/-- C8: at a well-formed id, the store not failing, delete answers 204
whether or not a document with that id is stored (the store is untouched
when none is, and holds none with that id afterwards); a second delete of
the same id answers 204 again and leaves the store as the first delete left
it. -/
theorem C8_delete_succeeds_unconditionally :
    (∀ (env env2 : Env) (db : DB) (s : String) (id : ObjectID),
      db.Valid → ObjectIDFromHex s = .ok id → env.fault = none → env2.fault = none →
      (deleteMusica env db s).1 = ⟨StatusNoContent, .empty⟩ ∧
      ((∀ m ∈ db.musicas, m.ID ≠ id) → (deleteMusica env db s).2 = db) ∧
      (∀ m ∈ (deleteMusica env db s).2.musicas, m.ID ≠ id) ∧
      deleteMusica env2 (deleteMusica env db s).2 s
        = (⟨StatusNoContent, .empty⟩, (deleteMusica env db s).2)) ∧
    (∀ (env env2 : Env) (db : DB) (s : String) (id : ObjectID),
      db.Valid → ObjectIDFromHex s = .ok id → env.fault = none → env2.fault = none →
      (deleteColecao env db s).1 = ⟨StatusNoContent, .empty⟩ ∧
      ((∀ c ∈ db.colecoes, c.ID ≠ id) → (deleteColecao env db s).2 = db) ∧
      (∀ c ∈ (deleteColecao env db s).2.colecoes, c.ID ≠ id) ∧
      deleteColecao env2 (deleteColecao env db s).2 s
        = (⟨StatusNoContent, .empty⟩, (deleteColecao env db s).2)) := by
  constructor
  · intro env env2 db s id hv hs hf hf2
    have hgone := @eraseP_absent_of_nodup Musica _ db.musicas id hv.1.1
    simp only [deleteMusica, hs, DeleteOne, hf, hf2, true_and]
    refine ⟨?_, hgone, ?_⟩
    · intro habs
      rw [@eraseP_absent Musica _ db.musicas id habs]
    · rw [eraseP_absent hgone]
  · intro env env2 db s id hv hs hf hf2
    have hgone := @eraseP_absent_of_nodup Colecao _ db.colecoes id hv.2.1
    simp only [deleteColecao, hs, DeleteOne, hf, hf2, true_and]
    refine ⟨?_, hgone, ?_⟩
    · intro habs
      rw [@eraseP_absent Colecao _ db.colecoes id habs]
    · rw [eraseP_absent hgone]


/-- C8 at the stored `sampleTrack`, deleted twice. -/
theorem C8_delete_succeeds_unconditionally_witness :
    sampleDB.Valid ∧ ObjectIDFromHex "6504d2000000000000000aff" = .ok sampleID ∧
    sampleEnv.fault = none ∧ laterEnv.fault = none ∧
    (deleteMusica sampleEnv sampleDB "6504d2000000000000000aff").1
      = ⟨StatusNoContent, .empty⟩ ∧
    deleteMusica laterEnv (deleteMusica sampleEnv sampleDB "6504d2000000000000000aff").2
        "6504d2000000000000000aff"
      = (⟨StatusNoContent, .empty⟩,
          (deleteMusica sampleEnv sampleDB "6504d2000000000000000aff").2) :=
  ⟨by decide, by decide, by decide, by decide,
    (C8_delete_succeeds_unconditionally.1 sampleEnv laterEnv sampleDB
      "6504d2000000000000000aff" sampleID (by decide) (by decide) (by decide) (by decide)).1,
    (C8_delete_succeeds_unconditionally.1 sampleEnv laterEnv sampleDB
      "6504d2000000000000000aff" sampleID (by decide) (by decide) (by decide)
      (by decide)).2.2.2⟩

/-! ## Tracks and collections are independent -/

/-- C9: createCollection with a store that accepts the insert answers 201
for every list of track references and every content of the tracks store,
and stores the list as given (order and duplicates kept); create, update
and delete of a track leave the collections store as it was; and a
collection fetched after a track was deleted comes back with exactly the
references it was created with. -/
theorem C9_no_referential_integrity :
    (∀ (env : Env) (tracks : List Musica) (cols : List Colecao) (b : Colecao),
      env.fault = none → env.newObjectID ≠ NilObjectID →
      (∀ c ∈ cols, c.ID ≠ env.newObjectID) →
      ∃ e : Colecao,
        createColecao env ⟨tracks, cols⟩ (some b)
          = (⟨StatusCreated, .colecao e⟩, ⟨tracks, cols ++ [e.marshal]⟩) ∧
        e.Musicas = b.Musicas ∧ e.marshal.Musicas = b.Musicas) ∧
    (∀ (env : Env) (db : DB) (s : String) (bm : Option Musica),
      (createMusica env db bm).2.colecoes = db.colecoes ∧
      (updateMusica env db s bm).2.colecoes = db.colecoes ∧
      (deleteMusica env db s).2.colecoes = db.colecoes) ∧
    (∀ (env env2 env3 : Env) (db : DB) (body : Option Colecao) (e : Colecao) (s : String),
      (createColecao env db body).1 = ⟨StatusCreated, .colecao e⟩ →
      env.newObjectID ≠ NilObjectID → env3.fault = none →
      ∃ c : Colecao,
        (getColecao env3 (deleteMusica env2 (createColecao env db body).2 s).2 e.ID.Hex).1
          = ⟨StatusOK, .colecao c⟩ ∧
        c.ID = e.ID ∧ c.Musicas = e.Musicas ∧
        ∀ b, body = some b → c.Musicas = b.Musicas) := by
  refine ⟨?_, ?_, ?_⟩
  · intro env tracks cols b hf hne hfresh
    have hst : stored env.driverObjectID
        ({ b with ID := env.newObjectID, DataCriacao := env.now, DataAtualizacao := env.now }
          : Colecao)
        = Colecao.marshal { b with ID := env.newObjectID, DataCriacao := env.now,
                                   DataAtualizacao := env.now } :=
      @stored_of_ne_nil Colecao _ _ _ _ hne
    have hi : InsertOne env.fault env.driverObjectID cols
        ({ b with ID := env.newObjectID, DataCriacao := env.now, DataAtualizacao := env.now }
          : Colecao) = .ok (cols ++ [Colecao.marshal { b with ID := env.newObjectID,
                                                              DataCriacao := env.now,
                                                              DataAtualizacao := env.now }]) := by
      rw [hf, ← hst]
      apply InsertOne_of_fresh
      rw [hst]
      exact hfresh
    exact ⟨_, @createColecao_of_insert env ⟨tracks, cols⟩ b _ hi, rfl, rfl⟩
  · intro env db s bm
    exact ⟨createMusica_colecoes env db bm, updateMusica_colecoes env db s bm,
      deleteMusica_colecoes env db s⟩
  · intro env env2 env3 db body e s h hne hf
    obtain ⟨b, hb, he, hi, _⟩ := createColecao_created h
    have hid : Document.id e ≠ NilObjectID := by rw [he]; exact hne
    have hfind := FindOne_after_insert hi hid
    refine ⟨e.marshal, ?_, rfl, rfl, ?_⟩
    · rw [getColecao_response env3 _ _ _ (deleteMusica_colecoes env2 _ s)]
      simp only [getColecao, ObjectIDFromHex_Hex, hf]
      rw [show e.ID = Document.id e from rfl, hfind]
      rfl
    · intro b2 hb2
      rw [hb] at hb2
      cases hb2
      rw [he]
      rfl

/-- C9 at a collection that refers to a track the store does not hold, and at the delete of a track. -/
theorem C9_no_referential_integrity_witness :
    laterEnv.fault = none ∧ laterEnv.newObjectID ≠ NilObjectID ∧
    (∀ c ∈ [sampleColecao], c.ID ≠ laterEnv.newObjectID) ∧
    (∃ e : Colecao,
      createColecao laterEnv ⟨[], [sampleColecao]⟩ (some sampleSet)
        = (⟨StatusCreated, .colecao e⟩, ⟨[], [sampleColecao] ++ [e.marshal]⟩) ∧
      e.Musicas = sampleSet.Musicas ∧ e.marshal.Musicas = sampleSet.Musicas) ∧
    (createColecao laterEnv sampleDB (some sampleSet)).1 = ⟨StatusCreated, .colecao newSet⟩ ∧
    sampleEnv.fault = none ∧
    (∃ c : Colecao,
      (getColecao sampleEnv
          (deleteMusica sampleEnv (createColecao laterEnv sampleDB (some sampleSet)).2
            "6504d2000000000000000aff").2 newSet.ID.Hex).1 = ⟨StatusOK, .colecao c⟩ ∧
      c.ID = newSet.ID ∧ c.Musicas = newSet.Musicas ∧
      ∀ b, some sampleSet = some b → c.Musicas = b.Musicas) :=
  ⟨by decide, by decide, by decide,
    C9_no_referential_integrity.1 laterEnv [] [sampleColecao] sampleSet (by decide) (by decide)
      (by decide),
    by decide, by decide,
    C9_no_referential_integrity.2.2 laterEnv sampleEnv sampleEnv sampleDB (some sampleSet)
      newSet "6504d2000000000000000aff" (by decide) (by decide) (by decide)⟩

/-! ## Update at an absent id -/

/-- C10: update at a well-formed id that no stored document carries, with
the store reporting no error, answers 200 with the body's fields, id set to
the path id and updatedAt set to the current time, and leaves the store as
it was; every update that answers 200 at this id, body and time, on any
store, carries the same entity. -/
theorem C10_lenient_update :
    (∀ (env : Env) (db : DB) (s : String) (id : ObjectID) (b : Musica),
      ObjectIDFromHex s = .ok id → (∀ m ∈ db.musicas, m.ID ≠ id) → env.fault = none →
      updateMusica env db s (some b)
        = (⟨StatusOK, .musica { b with ID := id, DataAtualizacao := env.now }⟩, db) ∧
      ∀ db2 : DB, (updateMusica env db2 s (some b)).1.status = StatusOK →
        (updateMusica env db2 s (some b)).1
          = ⟨StatusOK, .musica { b with ID := id, DataAtualizacao := env.now }⟩) ∧
    (∀ (env : Env) (db : DB) (s : String) (id : ObjectID) (b : Colecao),
      ObjectIDFromHex s = .ok id → (∀ c ∈ db.colecoes, c.ID ≠ id) → env.fault = none →
      updateColecao env db s (some b)
        = (⟨StatusOK, .colecao { b with ID := id, DataAtualizacao := env.now }⟩, db) ∧
      ∀ db2 : DB, (updateColecao env db2 s (some b)).1.status = StatusOK →
        (updateColecao env db2 s (some b)).1
          = ⟨StatusOK, .colecao { b with ID := id, DataAtualizacao := env.now }⟩) := by
  constructor
  · intro env db s id b hs habs hf
    constructor
    · have hu : updateFirst id ({ b with DataAtualizacao := env.now } : Musica) db.musicas
          = .ok db.musicas := updateFirst_absent _ habs
      simp only [updateMusica, hs, UpdateOne, hf, hu]
    · intro db2
      simp only [updateMusica, hs]
      split
      · intro h; simp at h
      · intro _; rfl
  · intro env db s id b hs habs hf
    constructor
    · have hu : updateFirst id ({ b with DataAtualizacao := env.now } : Colecao) db.colecoes
          = .ok db.colecoes := updateFirst_absent _ habs
      simp only [updateColecao, hs, UpdateOne, hf, hu]
    · intro db2
      simp only [updateColecao, hs]
      split
      · intro h; simp at h
      · intro _; rfl

/-- C10 at an id that `sampleDB` holds no track for. -/
theorem C10_lenient_update_witness :
    ObjectIDFromHex "6504d2000000000000000b00" = .ok otherID ∧
    (∀ m ∈ sampleDB.musicas, m.ID ≠ otherID) ∧ sampleEnv.fault = none ∧
    updateMusica sampleEnv sampleDB "6504d2000000000000000b00" (some sampleTrack)
      = (⟨StatusOK, .musica { sampleTrack with ID := otherID,
                                               DataAtualizacao := sampleEnv.now }⟩, sampleDB) :=
  ⟨by decide, by decide, by decide,
    (C10_lenient_update.1 sampleEnv sampleDB "6504d2000000000000000b00" otherID sampleTrack
      (by decide) (by decide) (by decide)).1⟩

end AdoraPro
